import Mathlib

/-!
Shallow embedding of `mmocr/datasets/recog_lmdb_dataset.py` (class
`RecogLMDBDataset`): the store probe performed in `__init__`, the record
decoder `load_data_list` / `parse_data_info`, and the per-line parsing
contract.  Keys and values of the LMDB store are byte strings; a value is
modelled as either a byte sequence that is valid UTF-8 (carried as the
decoded string) or one that is not (binary payloads such as images), which
is exactly the distinction `bytes.decode('utf-8')` observes.
-/

namespace RecogLMDB

/-- A store value: either bytes that decode as UTF-8 (carried as the decoded
string) or bytes that do not (e.g. binary image payloads). -/
inductive BVal where
  | txt (s : String)
  | bin (b : List Nat)
deriving DecidableEq

/-- A read-only key-value store (one LMDB read transaction): a partial map
from keys to values.  All keys the code uses are ASCII strings. -/
abbrev Store := String → Option BVal

/-- `value.decode('utf-8')`: succeeds exactly on valid-UTF-8 values. -/
def BVal.decodeUtf8 : BVal → Option String
  | .txt s => some s
  | .bin _ => none

/-- The characters Python `str.strip()` / `int()` treat as whitespace
(ASCII fragment). -/
def pyWsChars : List Char := [' ', '\t', '\n', '\r', Char.ofNat 11, Char.ofNat 12]

/-- Python `s.strip(chars)`: remove leading and trailing characters that are
members of `cs` (NOT substring removal). -/
def pyStripChars (cs : List Char) (s : String) : String :=
  String.mk (((s.data.dropWhile (fun c => cs.contains c)).reverse.dropWhile
    (fun c => cs.contains c)).reverse)

/-- No two adjacent underscores (part of Python's numeric-literal rule). -/
def noDoubleUnderscore : List Char → Bool
  | '_' :: '_' :: _ => false
  | _ :: rest => noDoubleUnderscore rest
  | [] => true

/-- A valid Python decimal digit run: nonempty, starts and ends with a digit,
contains only digits and single separating underscores. -/
def digitsOk (l : List Char) : Bool :=
  !l.isEmpty &&
  (match l.head? with | some c => c.isDigit | none => false) &&
  (match l.getLast? with | some c => c.isDigit | none => false) &&
  l.all (fun c => c.isDigit || c = '_') &&
  noDoubleUnderscore l

/-- Numeric value of a digit run. -/
def digitsVal (l : List Char) : Nat :=
  l.foldl (fun a c => a * 10 + (c.toNat - 48)) 0

/-- Python `int(s)` on a decoded string (ASCII decimal fragment): optional
surrounding whitespace, optional sign, digits with optional single
underscore separators.  `none` models the `ValueError` raised otherwise. -/
def pyIntParse (s : String) : Option Int :=
  match (pyStripChars pyWsChars s).data with
  | '+' :: r => if digitsOk r then some (digitsVal (r.filter Char.isDigit)) else none
  | '-' :: r => if digitsOk r then some (-(digitsVal (r.filter Char.isDigit) : Int)) else none
  | r => if digitsOk r then some (digitsVal (r.filter Char.isDigit)) else none

/-- `f'{n:09d}'` for a natural number: decimal, zero-padded to 9 digits. -/
def fmt9 (n : Nat) : String :=
  String.mk (List.replicate (9 - (toString n).length) '0') ++ toString n

/-- `f'label-{j:09d}'`. -/
def labelKey (j : Nat) : String := "label-" ++ fmt9 j

/-- `f'image-{j:09d}'`. -/
def imageKey (j : Nat) : String := "image-" ++ fmt9 j

/-- `os.path.join(a, b)` (posix, two arguments): `b` if it is absolute or
`a` is empty, otherwise `a` and `b` glued with exactly one `'/'`. -/
def pyPathJoin (a b : String) : String :=
  if b.data.head? = some '/' then b
  else if a = "" then b
  else if a.data.getLast? = some '/' then a ++ b
  else a ++ "/" ++ b

/-- Python `s.split(sep)` for a one-character separator: split at every
occurrence, keeping empty fragments (`''.split(' ') == ['']`). -/
def pySplitCharAux (sep : Char) : List Char → List Char → List String
  | [], acc => [String.mk acc.reverse]
  | c :: rest, acc =>
    if c = sep then String.mk acc.reverse :: pySplitCharAux sep rest []
    else pySplitCharAux sep rest (c :: acc)

/-- Python `s.split(sep)` for a one-character separator. -/
def pySplitChar (sep : Char) (s : String) : List String :=
  pySplitCharAux sep s.data []

/-- The deprecated-branch line destructuring
`filename, text = line.strip('/n').split(' ')`: the code's literal
`strip('/n')` removes leading/trailing `'/'` and `'n'` characters (not a
newline), then the line is split on every single space and unpacked into
exactly two fields; `none` models the unpacking `ValueError`. -/
def depSplit (line : String) : Option (String × String) :=
  match pySplitChar ' ' (pyStripChars ['/', 'n'] line) with
  | [f, t] => some (f, t)
  | _ => none

/-! ### The pluggable line parser

`LineJsonParser` itself is not under `src/`; per the spec it is an external
collaborator with a declared ordered two-key contract that parses a jsonl
record line.  It is modelled here from the spec: a flat JSON object with
string values, from which the two configured keys are extracted. -/

/-- JSON insignificant whitespace. -/
def jsonWs (c : Char) : Bool := c = ' ' || c = '\t' || c = '\n' || c = '\r'

/-- Value of one hexadecimal digit. -/
def hexDigitVal (c : Char) : Option Nat :=
  if '0' ≤ c ∧ c ≤ '9' then some (c.toNat - 48)
  else if 'a' ≤ c ∧ c ≤ 'f' then some (c.toNat - 87)
  else if 'A' ≤ c ∧ c ≤ 'F' then some (c.toNat - 55)
  else none

/-- Decode one JSON string escape (the character after a backslash). -/
def jEsc : List Char → Option (Char × List Char)
  | 'u' :: a :: b :: c :: d :: rest => do
    let va ← hexDigitVal a
    let vb ← hexDigitVal b
    let vc ← hexDigitVal c
    let vd ← hexDigitVal d
    some (Char.ofNat (((va * 16 + vb) * 16 + vc) * 16 + vd), rest)
  | c :: rest =>
    if c = '"' then some ('"', rest)
    else if c = '\\' then some ('\\', rest)
    else if c = '/' then some ('/', rest)
    else if c = 'n' then some ('\n', rest)
    else if c = 't' then some ('\t', rest)
    else if c = 'r' then some ('\r', rest)
    else if c = 'b' then some (Char.ofNat 8, rest)
    else if c = 'f' then some (Char.ofNat 12, rest)
    else none
  | [] => none

/-- Parse the body of a JSON string (after the opening quote), fuelled. -/
def jStrAux : Nat → List Char → List Char → Option (String × List Char)
  | 0, _, _ => none
  | _ + 1, _, [] => none
  | fuel + 1, acc, c :: rest =>
    if c = '"' then some (String.mk acc.reverse, rest)
    else if c = '\\' then
      match jEsc rest with
      | some (ch, r2) => jStrAux fuel (ch :: acc) r2
      | none => none
    else jStrAux fuel (c :: acc) rest

/-- Parse the members of a JSON object (input starts at the opening quote of
the next key), fuelled. -/
def jMembersAux : Nat → List Char → Option (List (String × String) × List Char)
  | 0, _ => none
  | fuel + 1, l =>
    match l with
    | '"' :: r1 =>
      match jStrAux (r1.length + 1) [] r1 with
      | none => none
      | some (k, r2) =>
        match r2.dropWhile jsonWs with
        | ':' :: r3 =>
          match r3.dropWhile jsonWs with
          | '"' :: r4 =>
            match jStrAux (r4.length + 1) [] r4 with
            | none => none
            | some (v, r5) =>
              match r5.dropWhile jsonWs with
              | ',' :: r6 =>
                match jMembersAux fuel (r6.dropWhile jsonWs) with
                | some (ms, r7) => some ((k, v) :: ms, r7)
                | none => none
              | '}' :: r6 => some ([(k, v)], r6)
              | _ => none
          | _ => none
        | _ => none
    | _ => none

/-- Modelled from the spec: `json.loads` as invoked by the external
`LineJsonParser` (not under `src/`) on a jsonl record line — a flat JSON
object whose values are strings, per the declared two-field record shape. -/
def jsonParse (s : String) : Option (List (String × String)) :=
  match s.data.dropWhile jsonWs with
  | '{' :: r =>
    match r.dropWhile jsonWs with
    | '}' :: r2 => if (r2.dropWhile jsonWs).isEmpty then some [] else none
    | l2 =>
      match jMembersAux (l2.length + 1) l2 with
      | some (ms, r2) => if (r2.dropWhile jsonWs).isEmpty then some ms else none
      | none => none
  | _ => none

/-- Look up a key in a parsed JSON object (first occurrence). -/
def lookupKey (m : List (String × String)) (k : String) : Option String :=
  (m.find? (fun kv => kv.1 == k)).map (fun kv => kv.2)

/-- The raw line handed to the line parser.  `synthesized f t` is the string
`json.dumps(dict(filename=f, text=t), ensure_ascii=False)` built by
`load_data_list`; since `json.loads` of a `json.dumps` output recovers the
two fields exactly, the synthesized line is modelled by its fields.  `raw s`
is a string fetched verbatim from the store (label-only branch). -/
inductive Line where
  | synthesized (filename text : String)
  | raw (s : String)
deriving DecidableEq

/-- Modelled from the spec: the external `LineJsonParser` configured with an
ordered two-key contract (`keys[0]` = path-like field, `keys[1]` = text
field). -/
structure LineJsonP where
  k0 : String
  k1 : String
deriving DecidableEq

/-- Apply the line parser to a raw line: parse as a JSON object and extract
the two configured keys; `none` models any raised parser error
(`json.loads` failure or missing key). -/
def LineJsonP.parseLine (p : LineJsonP) : Line → Option (String × String)
  | .synthesized f t =>
    match lookupKey [("filename", f), ("text", t)] p.k0,
          lookupKey [("filename", f), ("text", t)] p.k1 with
    | some a, some b => some (a, b)
    | _, _ => none
  | .raw s =>
    match jsonParse s with
    | none => none
    | some m =>
      match lookupKey m p.k0, lookupKey m p.k1 with
      | some a, some b => some (a, b)
      | _, _ => none

/-- The default parser configuration of the source:
`dict(type='LineJsonParser', keys=['filename', 'text'])`. -/
def stdP : LineJsonP := ⟨"filename", "text"⟩

/-! ### Data model and errors -/

/-- The probe results held by the constructed dataset (`self.total_number`,
`self.deprecated_format`, `self.label_only`). -/
structure FormatDescriptor where
  total_number : Int
  deprecated_format : Bool
  label_only : Bool
deriving DecidableEq

/-- One output instance `dict(text=...)`. -/
structure RecInstance where
  text : String
deriving DecidableEq

/-- One normalized annotation `dict(img_path=..., instances=[...])`. -/
structure DataInfo where
  img_path : String
  instances : List RecInstance
deriving DecidableEq

/-- The error taxonomy of the spec.  The Python exceptions are mapped onto
it: a count key that is absent or fails to decode as an integer aborts the
probe (`AttributeError` / `UnicodeDecodeError` / `ValueError`) —
`formatError`; an index key absent mid-scan (`AttributeError` on
`None.decode`) — `storeAccessError`; a deprecated line that does not unpack
into two fields (`ValueError`) — `formatError`; a record value that is not
valid UTF-8 — `unicodeDecodeError`; a parser failure — `parserError`;
an unsupported parser configuration — `configurationError`. -/
inductive Err where
  | storeAccessError
  | formatError
  | configurationError
  | unicodeDecodeError
  | parserError
deriving DecidableEq

/-- `True` on `.ok`. -/
def isOkB {α : Type} : Except Err α → Bool
  | .ok _ => true
  | .error _ => false

/-! ### StoreProbe -/

/-- The count value a reserved key yields: present, valid UTF-8, and an
integer string. -/
def countVal (ov : Option BVal) : Option Int :=
  ov.bind (fun v => v.decodeUtf8.bind pyIntParse)

/-- The probe of `__init__` (lines 84-105 of the source): read
`num-samples`; only if it is absent (`AttributeError`) fall back to
`total_number` and mark the deprecated format; then — only when a count was
obtained — probe `image-000000001` and set `label_only` to its absence.
The second component is the list of keys fetched, in order. -/
def probe (s : Store) : Except Err FormatDescriptor × List String :=
  match s "num-samples" with
  | some v =>
    match v.decodeUtf8.bind pyIntParse with
    | some n => (.ok ⟨n, false, (s (imageKey 1)).isNone⟩, ["num-samples", imageKey 1])
    | none => (.error .formatError, ["num-samples"])
  | none =>
    match s "total_number" with
    | some v =>
      match v.decodeUtf8.bind pyIntParse with
      | some n =>
        (.ok ⟨n, true, (s (imageKey 1)).isNone⟩, ["num-samples", "total_number", imageKey 1])
      | none => (.error .formatError, ["num-samples", "total_number"])
    | none => (.error .formatError, ["num-samples", "total_number"])

/-- The parser configuration dict handed to `__init__`. -/
structure ParserCfg where
  type : String
  keys : List String
deriving DecidableEq

/-- Construction (`__init__`): reject any `parser_cfg` whose type is not
`LineJsonParser` (lines 76-79), build the parser — modelled from the spec,
the external `LineJsonParser` build validates the two-element key list —
and only then open the store and probe it.  The second component is the
list of keys fetched (empty when construction fails before store I/O). -/
def construct (cfg : ParserCfg) (s : Store) :
    Except Err (LineJsonP × FormatDescriptor) × List String :=
  if cfg.type = "LineJsonParser" then
    match cfg.keys with
    | [k0, k1] =>
      match probe s with
      | (.ok d, tr) => (.ok (⟨k0, k1⟩, d), tr)
      | (.error e, tr) => (.error e, tr)
    | _ => (.error .configurationError, [])
  else (.error .configurationError, [])

/-! ### RecordDecoder -/

/-- `parse_data_info` (lines 153-170): run the line parser, then build the
record from the configured image-path data prefix and the two parsed
fields. -/
def parseRecord (p : LineJsonP) (pre : String) (l : Line) : Except Err DataInfo :=
  match p.parseLine l with
  | none => .error .parserError
  | some (f, t) => .ok ⟨pyPathJoin pre f, [⟨t⟩]⟩

/-- One iteration of the `load_data_list` loop (lines 131-150) at index `i`,
together with the single store key it fetches.  Deprecated branch: fetch the
bare decimal key `str(i)`, decode, `strip('/n').split(' ')` into two fields,
synthesize the jsonl line.  Modern branch: fetch `label-{i+1:09d}`; in
label-only mode the decoded value is itself the line; otherwise the line is
synthesized from the image key string `image-{i+1:09d}` and the decoded
text.  No image key is ever fetched here. -/
def decodeOne (p : LineJsonP) (d : FormatDescriptor) (pre : String) (s : Store) (i : Nat) :
    Except Err DataInfo × String :=
  if d.deprecated_format then
    match s (toString i) with
    | none => (.error .storeAccessError, toString i)
    | some v =>
      match v.decodeUtf8 with
      | none => (.error .unicodeDecodeError, toString i)
      | some line =>
        match depSplit line with
        | none => (.error .formatError, toString i)
        | some (f, t) => (parseRecord p pre (.synthesized f t), toString i)
  else
    match s (labelKey (i + 1)) with
    | none => (.error .storeAccessError, labelKey (i + 1))
    | some v =>
      match v.decodeUtf8 with
      | none => (.error .unicodeDecodeError, labelKey (i + 1))
      | some text =>
        if d.label_only then (parseRecord p pre (.raw text), labelKey (i + 1))
        else (parseRecord p pre (.synthesized (imageKey (i + 1)) text), labelKey (i + 1))

/-- Run the loop over a list of indices, accumulating records and the fetch
trace; the first failing iteration aborts the whole run (the Python
exception propagates out of `load_data_list`), so no partial list is ever
returned. -/
def decodeAllAux (p : LineJsonP) (d : FormatDescriptor) (pre : String) (s : Store) :
    List Nat → Except Err (List DataInfo) × List String
  | [] => (.ok [], [])
  | i :: rest =>
    match decodeOne p d pre s i with
    | (.error e, k) => (.error e, [k])
    | (.ok r, k) =>
      match decodeAllAux p d pre s rest with
      | (.ok rs, ks) => (.ok (r :: rs), k :: ks)
      | (.error e, ks) => (.error e, k :: ks)

/-- `load_data_list` (lines 120-151): `for i in range(self.total_number)`,
decode each record in ascending index order. -/
def decodeAll (p : LineJsonP) (d : FormatDescriptor) (pre : String) (s : Store) :
    Except Err (List DataInfo) × List String :=
  decodeAllAux p d pre s (List.range d.total_number.toNat)

/-- The index key the decoder fetches for logical index `i`. -/
def expectedKey (d : FormatDescriptor) (i : Nat) : String :=
  if d.deprecated_format then toString i else labelKey (i + 1)

/-- The spec's reading of "split into whitespace-separated fields": split on
runs of whitespace, discarding empty fragments (Python `str.split()` with
no separator).  Used only to state what the spec's words demand, for
comparison with the code's `split(' ')`. -/
def specWsSplitAux : List Char → List Char → List String
  | [], acc => if acc.isEmpty then [] else [String.mk acc.reverse]
  | c :: rest, acc =>
    if pyWsChars.contains c then
      if acc.isEmpty then specWsSplitAux rest []
      else String.mk acc.reverse :: specWsSplitAux rest []
    else specWsSplitAux rest (c :: acc)

/-- Split on whitespace runs, discarding empties (the spec's notion). -/
def specWsSplit (s : String) : List String :=
  specWsSplitAux s.data []

/-! ### Concrete stores used as witnesses and counterexamples -/

/-- A store with no keys at all. -/
def emptyStore : Store := fun _ => none

/-- The spec's MODERN concrete scenario: `num-samples = b"2"`, an image
present at `image-000000001`, labels `hello` / `world`. -/
def c1Store : Store := fun k =>
  if k = "num-samples" then some (.txt "2")
  else if k = "image-000000001" then some (.bin [0])
  else if k = "label-000000001" then some (.txt "hello")
  else if k = "label-000000002" then some (.txt "world")
  else none

/-- A DEPRECATED store whose single line starts with the letter `n`,
exposing the `strip('/n')` behaviour. -/
def c2Store : Store := fun k =>
  if k = "total_number" then some (.txt "1")
  else if k = "0" then some (.txt "na.png x")
  else none

/-- The spec's DEPRECATED concrete scenario: `total_number = b"1"`,
`b"0" = b"img1.png cat"`. -/
def c2bStore : Store := fun k =>
  if k = "total_number" then some (.txt "1")
  else if k = "0" then some (.txt "img1.png cat")
  else none

/-- A label-only MODERN store whose single label value is a pre-formed
two-field jsonl record. -/
def c3Store : Store := fun k =>
  if k = "num-samples" then some (.txt "1")
  else if k = "label-000000001" then
    some (.txt "\x7b\"filename\": \"a\", \"text\": \"hi\"\x7d")
  else none

/-- A DEPRECATED store whose single line contains a tab inside the first
field: three whitespace-separated fields, but exactly one space. -/
def c4Store : Store := fun k =>
  if k = "total_number" then some (.txt "1")
  else if k = "0" then some (.txt "a\tb c")
  else none

/-- A DEPRECATED store whose single line contains no whitespace at all. -/
def c4bStore : Store := fun k =>
  if k = "total_number" then some (.txt "1")
  else if k = "0" then some (.txt "abc")
  else none

/-- A MODERN store declaring two records but holding only the first label:
truncated relative to its declared count. -/
def c6Store : Store := fun k =>
  if k = "num-samples" then some (.txt "2")
  else if k = "image-000000001" then some (.bin [0])
  else if k = "label-000000001" then some (.txt "x")
  else none

/-- A DEPRECATED store without any image key. -/
def c10aStore : Store := fun k =>
  if k = "total_number" then some (.txt "1")
  else if k = "0" then some (.txt "img1.png cat")
  else none

/-- The same DEPRECATED store with a binary payload added under
`image-000000001`. -/
def c10bStore : Store := fun k =>
  if k = "total_number" then some (.txt "1")
  else if k = "0" then some (.txt "img1.png cat")
  else if k = "image-000000001" then some (.bin [7])
  else none

/-! ### Helper lemmas -/

theorem parseLine_std_synth (f t : String) :
    stdP.parseLine (.synthesized f t) = some (f, t) := rfl

theorem data_append_mk : ∀ s t : String, (s ++ t).data = s.data ++ t.data := by
  intro ⟨l⟩ ⟨m⟩
  rfl

/-- Generated image keys and label keys are always distinct strings. -/
theorem imageKey_ne_labelKey (n m : Nat) : imageKey n ≠ labelKey m := by
  intro h
  have h2 := congrArg String.data h
  rw [imageKey, labelKey, data_append_mk, data_append_mk] at h2
  have hi : "image-".data = 'i' :: "mage-".data := rfl
  have hl : "label-".data = 'l' :: "abel-".data := rfl
  rw [hi, hl, List.cons_append, List.cons_append] at h2
  exact absurd (List.head_eq_of_cons_eq h2) (by decide)

/-- If every index in the list decodes to a record, the loop returns the
record list and the per-index fetch trace, in order. -/
theorem decodeAllAux_map (p : LineJsonP) (d : FormatDescriptor) (pre : String) (s : Store)
    (f : Nat → DataInfo) (g : Nat → String) :
    ∀ l : List Nat, (∀ i ∈ l, decodeOne p d pre s i = (.ok (f i), g i)) →
      decodeAllAux p d pre s l = (.ok (l.map f), l.map g) := by
  intro l
  induction l with
  | nil => intro _; rfl
  | cons a t ih =>
    intro h
    have ha := h a (by simp)
    have ht := ih (fun i hi => h i (by simp [hi]))
    simp [decodeAllAux, ha, ht]

/-- A successful run returns one record per requested index. -/
theorem decodeAllAux_ok_length (p : LineJsonP) (d : FormatDescriptor) (pre : String)
    (s : Store) : ∀ (l : List Nat) (rs : List DataInfo),
    (decodeAllAux p d pre s l).1 = .ok rs → rs.length = l.length := by
  intro l
  induction l with
  | nil =>
    intro rs h
    simp [decodeAllAux] at h
    simp [← h]
  | cons a t ih =>
    intro rs h
    unfold decodeAllAux at h
    cases h1 : decodeOne p d pre s a with
    | mk e1 k1 =>
      rw [h1] at h
      cases e1 with
      | error e => simp at h
      | ok r =>
        cases h2 : decodeAllAux p d pre s t with
        | mk e2 k2 =>
          rw [h2] at h
          cases e2 with
          | error e => simp at h
          | ok rs2 =>
            simp at h
            have := ih rs2 (by rw [h2])
            simp [← h, this]

/-- The first failing index determines the error of the whole run. -/
theorem decodeAllAux_error (p : LineJsonP) (d : FormatDescriptor) (pre : String) (s : Store)
    (i : Nat) (rest : List Nat) (e : Err)
    (he : (decodeOne p d pre s i).1 = .error e) :
    ∀ l1 : List Nat, (∀ j ∈ l1, isOkB (decodeOne p d pre s j).1 = true) →
      (decodeAllAux p d pre s (l1 ++ i :: rest)).1 = .error e := by
  intro l1
  induction l1 with
  | nil =>
    intro _
    unfold decodeAllAux
    cases h1 : decodeOne p d pre s i with
    | mk e1 k1 =>
      rw [h1] at he
      simp at he
      subst he
      simp [h1]
  | cons a t ih =>
    intro h
    have ha := h a (by simp)
    unfold decodeAllAux
    cases h1 : decodeOne p d pre s a with
    | mk e1 k1 =>
      rw [h1] at ha
      cases e1 with
      | error e2 => simp [isOkB] at ha
      | ok r =>
        have ht := ih (fun j hj => h j (by simp [hj]))
        rw [List.cons_append]
        cases h2 : decodeAllAux p d pre s (t ++ i :: rest) with
        | mk e2 k2 =>
          rw [h2] at ht
          cases e2 with
          | error e3 =>
            simp at ht
            simp [h1, h2, ht]
          | ok rs => simp at ht

/-- If two runs see the same per-index results, they agree. -/
theorem decodeAllAux_congr (p : LineJsonP) (d1 d2 : FormatDescriptor) (pre : String)
    (s1 s2 : Store) :
    ∀ l : List Nat, (∀ i ∈ l, decodeOne p d1 pre s1 i = decodeOne p d2 pre s2 i) →
      decodeAllAux p d1 pre s1 l = decodeAllAux p d2 pre s2 l := by
  intro l
  induction l with
  | nil => intro _; rfl
  | cons a t ih =>
    intro h
    have ha := h a (by simp)
    have ht := ih (fun i hi => h i (by simp [hi]))
    unfold decodeAllAux
    rw [ha, ht]

/-- Any index below `N` splits `range N` around itself. -/
theorem range_split (i N : Nat) (h : i < N) :
    ∃ t, List.range N = List.range i ++ i :: t := by
  induction N with
  | zero => omega
  | succ n ih =>
    rcases Nat.lt_or_ge i n with h2 | h2
    · obtain ⟨t, ht⟩ := ih h2
      exact ⟨t ++ [n], by rw [List.range_succ, ht]; simp⟩
    · have : i = n := by omega
      subst this
      exact ⟨[], by rw [List.range_succ]⟩

/-- Probe inversion: a successful probe always fetched `image-000000001`,
and `label_only` records exactly its absence, regardless of encoding. -/
theorem probe_ok_inv (s : Store) (d : FormatDescriptor) (tr : List String)
    (hp : probe s = (.ok d, tr)) :
    imageKey 1 ∈ tr ∧ d.label_only = (s (imageKey 1)).isNone := by
  unfold probe at hp
  split at hp
  · split at hp
    · injection hp with h1 h2
      injection h1 with h1
      subst h1
      subst h2
      exact ⟨by simp, rfl⟩
    · injection hp with h1 h2
      exact absurd h1 (by simp)
  · split at hp
    · split at hp
      · injection hp with h1 h2
        injection h1 with h1
        subst h1
        subst h2
        exact ⟨by simp, rfl⟩
      · injection hp with h1 h2
        exact absurd h1 (by simp)
    · injection hp with h1 h2
      exact absurd h1 (by simp)

/-- Probe inversion for stores without `num-samples`: the descriptor is
deprecated and its count comes from `total_number`. -/
theorem probe_dep_inv (s : Store) (d : FormatDescriptor)
    (hns : s "num-samples" = none) (hp : (probe s).1 = .ok d) :
    d.deprecated_format = true ∧ countVal (s "total_number") = some d.total_number := by
  unfold probe at hp
  split at hp
  · next v heq => rw [hns] at heq; exact absurd heq (by simp)
  · split at hp
    · next v heq =>
      split at hp
      · next n hn =>
        simp only [] at hp
        injection hp with h1
        subst h1
        exact ⟨rfl, by simp [countVal, heq, hn]⟩
      · simp at hp
    · simp at hp

/-! ### Claims -/

/-- C1: For every MODERN store (the probe succeeds on `num-samples` with
count `N` and `deprecated_format = false`) that is not label-only, with all
label keys present and UTF-8 decodable, `decode_all` returns exactly `N`
records in ascending index order; record `i` has `image_path` equal to the
join of the configured prefix with `"image-%09d" % (i+1)` and `instances`
equal to the one-element list `[{text: t i}]` where `t i` is the UTF-8
decoding of the store value at `"label-%09d" % (i+1)`. -/
theorem C1_modern_decode (s : Store) (d : FormatDescriptor) (N : Nat) (t : Nat → String)
    (pre : String)
    (_hp : (probe s).1 = .ok d)
    (hdep : d.deprecated_format = false)
    (hlo : d.label_only = false)
    (hN : d.total_number = (N : Int))
    (ht : ∀ i, i < N → s (labelKey (i + 1)) = some (.txt (t i))) :
    (decodeAll stdP d pre s).1 =
      .ok ((List.range N).map
        (fun i => ⟨pyPathJoin pre (imageKey (i + 1)), [⟨t i⟩]⟩)) := by
  have htn : d.total_number.toNat = N := by rw [hN]; omega
  unfold decodeAll
  rw [htn]
  have h := decodeAllAux_map stdP d pre s
    (fun i => ⟨pyPathJoin pre (imageKey (i + 1)), [⟨t i⟩]⟩) (fun i => labelKey (i + 1))
    (List.range N) ?_
  · rw [h]
  · intro i hi
    have hiN : i < N := List.mem_range.mp hi
    simp [decodeOne, hdep, hlo, ht i hiN, BVal.decodeUtf8, parseRecord, parseLine_std_synth]

/-- C1 witness: the spec's concrete MODERN scenario — `num-samples = "2"`,
image present, labels `hello` / `world` — decodes to the two expected
records. -/
theorem C1_modern_decode_witness :
    (decodeAll stdP ⟨2, false, false⟩ "pre" c1Store).1 =
      .ok [⟨"pre/image-000000001", [⟨"hello"⟩]⟩, ⟨"pre/image-000000002", [⟨"world"⟩]⟩] := by
  have h := C1_modern_decode c1Store ⟨2, false, false⟩ 2
    (fun i => if i = 0 then "hello" else "world") "pre" rfl rfl rfl rfl (by decide)
  exact h.trans (by rfl)

/-- C5: For every store in which neither `num-samples` nor `total_number`
is present and decodable as a UTF-8 integer string, the probe fails with
`FormatError`. -/
theorem C5_probe_missing_counts (s : Store)
    (h1 : countVal (s "num-samples") = none)
    (h2 : countVal (s "total_number") = none) :
    (probe s).1 = .error .formatError := by
  unfold probe
  cases hns : s "num-samples" with
  | none =>
    cases htn : s "total_number" with
    | none => rfl
    | some v =>
      rw [htn] at h2
      have h2b : v.decodeUtf8.bind pyIntParse = none := h2
      simp [h2b]
  | some v =>
    rw [hns] at h1
    have h1b : v.decodeUtf8.bind pyIntParse = none := h1
    simp [h1b]

/-- C5 witness: probing a store with no keys at all fails with
`FormatError`. -/
theorem C5_probe_missing_counts_witness :
    (probe emptyStore).1 = .error .formatError :=
  C5_probe_missing_counts emptyStore rfl rfl

/-- C7: Constructing the decoder with a line parser configured with other
than the two-key contract — an unsupported parser variant, or more or fewer
than two declared keys — fails with `ConfigurationError` at construction
time, with an empty fetch trace, i.e. before any store I/O.  (The key-count
validation lives in the external `LineJsonParser` build, modelled from the
spec.) -/
theorem C7_config_rejected (cfg : ParserCfg) (s : Store)
    (h : cfg.type ≠ "LineJsonParser" ∨ cfg.keys.length ≠ 2) :
    construct cfg s = (.error .configurationError, []) := by
  unfold construct
  rcases h with h | h
  · rw [if_neg h]
  · by_cases hty : cfg.type = "LineJsonParser"
    · rw [if_pos hty]
      cases hk : cfg.keys with
      | nil => rfl
      | cons a t =>
        cases t with
        | nil => rfl
        | cons b u =>
          cases u with
          | nil => rw [hk] at h; simp at h
          | cons c w => rfl
    · rw [if_neg hty]

/-- C7 witness: a `LineJsonParser` configuration with a single declared key
is rejected at construction, with no store key fetched. -/
theorem C7_config_rejected_witness :
    construct ⟨"LineJsonParser", ["filename"]⟩ emptyStore =
      (.error .configurationError, []) :=
  C7_config_rejected ⟨"LineJsonParser", ["filename"]⟩ emptyStore (Or.inr (by decide))

/-- C6: For every store whose declared count exceeds the index keys
present — the expected key of some index `i < N` is absent while all
earlier indices decode fine — `decode_all` fails with `StoreAccessError`;
and in general a successful `decode_all` always returns the complete list
of all declared records (all-or-nothing: an error run returns no list at
all). -/
theorem C6_truncated_store (s : Store) (d : FormatDescriptor) (N i : Nat) (pre : String)
    (_hp : (probe s).1 = .ok d)
    (hN : d.total_number = (N : Int))
    (hi : i < N)
    (hok : ∀ j, j < i → isOkB (decodeOne stdP d pre s j).1 = true)
    (hmiss : s (expectedKey d i) = none) :
    (decodeAll stdP d pre s).1 = .error .storeAccessError ∧
    ∀ (s2 : Store) (d2 : FormatDescriptor) (l : List DataInfo),
      (decodeAll stdP d2 pre s2).1 = .ok l → l.length = d2.total_number.toNat := by
  constructor
  · have htn : d.total_number.toNat = N := by rw [hN]; omega
    have he : (decodeOne stdP d pre s i).1 = .error .storeAccessError := by
      unfold expectedKey at hmiss
      cases hdep : d.deprecated_format with
      | true =>
        rw [hdep] at hmiss
        simp at hmiss
        simp [decodeOne, hdep, hmiss]
      | false =>
        rw [hdep] at hmiss
        simp at hmiss
        simp [decodeOne, hdep, hmiss]
    obtain ⟨tl, htl⟩ := range_split i N hi
    unfold decodeAll
    rw [htn, htl]
    exact decodeAllAux_error stdP d pre s i tl .storeAccessError he (List.range i)
      (fun j hj => hok j (List.mem_range.mp hj))
  · intro s2 d2 l h
    unfold decodeAll at h
    exact (decodeAllAux_ok_length stdP d2 pre s2 _ l h).trans (List.length_range _)

/-- C6 witness: a MODERN store declaring two records but holding only the
first label fails with `StoreAccessError`. -/
theorem C6_truncated_store_witness :
    (decodeAll stdP ⟨2, false, false⟩ "pre" c6Store).1 = .error .storeAccessError :=
  (C6_truncated_store c6Store ⟨2, false, false⟩ 2 1 "pre" rfl rfl (by decide)
    (by decide) rfl).1

/-- C8 counterexample: the claim says the `image-000000001` probe happens
only for MODERN stores and a DEPRECATED descriptor never carries
`labels_only = true`; but on a DEPRECATED store without that key the probe
fetches it anyway and records `label_only = true`. -/
theorem C8_probe_counterexample :
    probe c2Store = (.ok ⟨1, true, true⟩, ["num-samples", "total_number", imageKey 1]) ∧
    imageKey 1 ∈ (probe c2Store).2 ∧
    (⟨1, true, true⟩ : FormatDescriptor).deprecated_format = true ∧
    (⟨1, true, true⟩ : FormatDescriptor).label_only = true :=
  ⟨rfl, by decide, rfl, rfl⟩

/-- C8 (amended): the image-presence probe of `image-000000001` is
performed whenever the count probe succeeds, for both encodings, and
`label_only` records its absence regardless of encoding — so a DEPRECATED
descriptor can carry `label_only = true`; the flag is however never read on
the DEPRECATED decode path, whose output is independent of it. -/
theorem C8_probe_always (s : Store) (d : FormatDescriptor) (tr : List String)
    (hp : probe s = (.ok d, tr)) :
    imageKey 1 ∈ tr ∧
    d.label_only = (s (imageKey 1)).isNone ∧
    (d.deprecated_format = true →
      ∀ (p : LineJsonP) (pre : String) (b : Bool),
        decodeAll p ⟨d.total_number, d.deprecated_format, b⟩ pre s =
          decodeAll p d pre s) := by
  obtain ⟨h1, h2⟩ := probe_ok_inv s d tr hp
  refine ⟨h1, h2, ?_⟩
  intro hdep p pre b
  unfold decodeAll
  apply decodeAllAux_congr
  intro i _
  simp [decodeOne, hdep]

/-- C8 witness: the amended statement at the concrete DEPRECATED store. -/
theorem C8_probe_always_witness :
    imageKey 1 ∈ ["num-samples", "total_number", imageKey 1] ∧
    (⟨1, true, true⟩ : FormatDescriptor).label_only = (c2bStore (imageKey 1)).isNone ∧
    ((⟨1, true, true⟩ : FormatDescriptor).deprecated_format = true →
      ∀ (p : LineJsonP) (pre : String) (b : Bool),
        decodeAll p ⟨1, true, b⟩ pre c2bStore = decodeAll p ⟨1, true, true⟩ pre c2bStore) :=
  C8_probe_always c2bStore ⟨1, true, true⟩ ["num-samples", "total_number", imageKey 1] rfl

/-- C10: For DEPRECATED stores the output of `decode_all` is independent of
image-key presence: two stores that both lack `num-samples`, agree on
`total_number` and agree on the bare-decimal index keys produce equal
outputs, whatever their image keys hold, because `label_only` is never read
on the DEPRECATED decode path.  (Agreement is only required on the
in-range index keys, which is weaker than the claim's hypothesis.) -/
theorem C10_dep_image_independent (s1 s2 : Store) (p : LineJsonP) (pre : String)
    (d1 d2 : FormatDescriptor)
    (hns1 : s1 "num-samples" = none) (hns2 : s2 "num-samples" = none)
    (htn : s1 "total_number" = s2 "total_number")
    (hp1 : (probe s1).1 = .ok d1) (hp2 : (probe s2).1 = .ok d2)
    (hidx : ∀ n, n < d1.total_number.toNat → s1 (toString n) = s2 (toString n)) :
    (decodeAll p d1 pre s1).1 = (decodeAll p d2 pre s2).1 := by
  obtain ⟨hd1, hc1⟩ := probe_dep_inv s1 d1 hns1 hp1
  obtain ⟨hd2, hc2⟩ := probe_dep_inv s2 d2 hns2 hp2
  rw [htn, hc2] at hc1
  have htot : d1.total_number = d2.total_number := by
    injection hc1 with h
    exact h.symm
  have hcg := decodeAllAux_congr p d1 d2 pre s1 s2
    (List.range d1.total_number.toNat) ?_
  · unfold decodeAll
    rw [← htot, hcg]
  · intro i hi
    have hiN : i < d1.total_number.toNat := List.mem_range.mp hi
    have hix := hidx i hiN
    simp [decodeOne, hd1, hd2, hix]

/-- C10 witness: adding a binary image payload to a DEPRECATED store does
not change the decoded output. -/
theorem C10_dep_image_independent_witness :
    (decodeAll stdP ⟨1, true, true⟩ "pre" c10aStore).1 =
      (decodeAll stdP ⟨1, true, false⟩ "pre" c10bStore).1 :=
  C10_dep_image_independent c10aStore c10bStore stdP "pre" ⟨1, true, true⟩
    ⟨1, true, false⟩ rfl rfl rfl rfl rfl (by decide)

/-- C9: `decode_all` is a pure function of the store and descriptor, so two
calls on the same unchanged store yield identical output lists. -/
theorem C9_idempotent (p : LineJsonP) (d : FormatDescriptor) (pre : String) (s : Store)
    (l1 l2 : List DataInfo)
    (h1 : (decodeAll p d pre s).1 = .ok l1)
    (h2 : (decodeAll p d pre s).1 = .ok l2) : l1 = l2 := by
  rw [h1] at h2
  injection h2

/-- C2 counterexample: the claim says the fetched value is stripped of a
trailing newline and split on the first whitespace run; the code's literal
`strip('/n')` instead removes leading/trailing `'/'` and `'n'` characters.
On a DEPRECATED store whose line is `"na.png x"`, the claim predicts the
record `{image_path: "na.png", ...}` but the code produces
`{image_path: "a.png", ...}` (leading `n` stripped). -/
theorem C2_strip_counterexample :
    (probe c2Store).1 = .ok ⟨1, true, true⟩ ∧
    (decodeAll stdP ⟨1, true, true⟩ "" c2Store).1 = .ok [⟨"a.png", [⟨"x"⟩]⟩] ∧
    (⟨"a.png", [⟨"x"⟩]⟩ : DataInfo) ≠ ⟨"na.png", [⟨"x"⟩]⟩ :=
  ⟨rfl, rfl, by decide⟩

/-- C2 (amended): For every DEPRECATED store with count `N` and index
`i < N`, `decode_all` fetches the value at the bare 0-based decimal key
`str(i)`, decodes it as UTF-8, strips leading and trailing `'/'` and `'n'`
characters (the code's literal `strip('/n')`, not newline stripping),
splits on every single space character requiring exactly two fields
`(filename, text)`, and produces the record with
`image_path = join(prefix, filename)` and `instances = [{text}]`. -/
theorem C2_dep_decode (s : Store) (d : FormatDescriptor) (N : Nat)
    (v f t : Nat → String) (pre : String)
    (_hp : (probe s).1 = .ok d)
    (hdep : d.deprecated_format = true)
    (hN : d.total_number = (N : Int))
    (hv : ∀ i, i < N → s (toString i) = some (.txt (v i)))
    (hsp : ∀ i, i < N → depSplit (v i) = some (f i, t i)) :
    (decodeAll stdP d pre s).1 =
      .ok ((List.range N).map (fun i => ⟨pyPathJoin pre (f i), [⟨t i⟩]⟩)) := by
  have htn : d.total_number.toNat = N := by rw [hN]; omega
  unfold decodeAll
  rw [htn]
  have h := decodeAllAux_map stdP d pre s
    (fun i => ⟨pyPathJoin pre (f i), [⟨t i⟩]⟩) (fun i => toString i) (List.range N) ?_
  · rw [h]
  · intro i hi
    have hiN : i < N := List.mem_range.mp hi
    simp [decodeOne, hdep, hv i hiN, hsp i hiN, BVal.decodeUtf8, parseRecord,
      parseLine_std_synth]

/-- C2 witness: the spec's concrete DEPRECATED scenario —
`total_number = "1"`, `"0" = "img1.png cat"` — decodes to the expected
record. -/
theorem C2_dep_decode_witness :
    (decodeAll stdP ⟨1, true, true⟩ "pre" c2bStore).1 =
      .ok [⟨"pre/img1.png", [⟨"cat"⟩]⟩] := by
  have h := C2_dep_decode c2bStore ⟨1, true, true⟩ 1 (fun _ => "img1.png cat")
    (fun _ => "img1.png") (fun _ => "cat") "pre" rfl rfl rfl (by decide) (by decide)
  exact h.trans (by rfl)

/-- C3 counterexample: in a label-only MODERN store the raw value at
`label-%09d` is a pre-formed two-field jsonl record handed to the line
parser, so the returned record's text is the parsed `text` field, not the
raw value itself: here the raw value is the JSON line and the record's text
is `"hi"`, which differs from it. -/
theorem C3_raw_text_counterexample :
    (probe c3Store).1 = .ok ⟨1, false, true⟩ ∧
    (decodeAll stdP ⟨1, false, true⟩ "" c3Store).1 = .ok [⟨"a", [⟨"hi"⟩]⟩] ∧
    ("hi" : String) ≠ "\x7b\"filename\": \"a\", \"text\": \"hi\"\x7d" :=
  ⟨rfl, rfl, by decide⟩

/-- C3 (amended): For every label-only MODERN store, the raw value at
`"label-%09d" % (i+1)` is handed directly to the line parser with no
synthesis step; each returned record carries the `text` field the parser
extracts from that raw value (and joins its path field with the prefix);
and no image key is ever fetched during decoding — the fetch trace is
exactly the label keys. -/
theorem C3_label_only_decode (s : Store) (d : FormatDescriptor) (N : Nat)
    (v f t : Nat → String) (pre : String)
    (_hp : (probe s).1 = .ok d)
    (hdep : d.deprecated_format = false)
    (hlo : d.label_only = true)
    (hN : d.total_number = (N : Int))
    (hv : ∀ i, i < N → s (labelKey (i + 1)) = some (.txt (v i)))
    (hpl : ∀ i, i < N → stdP.parseLine (.raw (v i)) = some (f i, t i)) :
    decodeAll stdP d pre s =
      (.ok ((List.range N).map (fun i => ⟨pyPathJoin pre (f i), [⟨t i⟩]⟩)),
        (List.range N).map (fun i => labelKey (i + 1))) ∧
    ∀ n : Nat, imageKey n ∉ (decodeAll stdP d pre s).2 := by
  have htn : d.total_number.toNat = N := by rw [hN]; omega
  have h := decodeAllAux_map stdP d pre s
    (fun i => ⟨pyPathJoin pre (f i), [⟨t i⟩]⟩) (fun i => labelKey (i + 1))
    (List.range N) ?_
  · constructor
    · unfold decodeAll
      rw [htn, h]
    · intro n hn
      unfold decodeAll at hn
      rw [htn, h] at hn
      simp at hn
      obtain ⟨i, _, hi⟩ := hn
      exact imageKey_ne_labelKey n (i + 1) hi.symm
  · intro i hi
    have hiN : i < N := List.mem_range.mp hi
    simp [decodeOne, hdep, hlo, hv i hiN, BVal.decodeUtf8, parseRecord, hpl i hiN]

/-- C3 witness: the concrete label-only store decodes its pre-formed jsonl
line, fetching only the label key. -/
theorem C3_label_only_decode_witness :
    decodeAll stdP ⟨1, false, true⟩ "" c3Store =
      (.ok [⟨"a", [⟨"hi"⟩]⟩], ["label-000000001"]) ∧
    ∀ n : Nat, imageKey n ∉ (decodeAll stdP ⟨1, false, true⟩ "" c3Store).2 := by
  have h := C3_label_only_decode c3Store ⟨1, false, true⟩ 1
    (fun _ => "\x7b\"filename\": \"a\", \"text\": \"hi\"\x7d") (fun _ => "a")
    (fun _ => "hi") "" rfl rfl rfl rfl (by decide) (by decide)
  exact ⟨h.1.trans (by rfl), h.2⟩

/-- C4 counterexample: the claim demands `FormatError` whenever a fetched
value does not split into exactly two whitespace-separated fields, but the
code splits on single spaces only: the value `"a\tb c"` has three
whitespace-separated fields yet exactly one space, so the code happily
returns a record (with a tab inside `image_path`) instead of failing. -/
theorem C4_split_counterexample :
    (probe c4Store).1 = .ok ⟨1, true, true⟩ ∧
    (specWsSplit "a\tb c").length ≠ 2 ∧
    (decodeAll stdP ⟨1, true, true⟩ "" c4Store).1 = .ok [⟨"a\tb", [⟨"c"⟩]⟩] :=
  ⟨rfl, by decide, rfl⟩

/-- C4 (amended): For every DEPRECATED store, if the value fetched at the
first failing index — all earlier indices decoding fine — does not, after
the code's `strip('/n')`, split on single spaces into exactly two fields
(in particular, any value without whitespace), `decode_all` fails with
`FormatError`. -/
theorem C4_dep_badsplit (s : Store) (d : FormatDescriptor) (N i : Nat) (v : String)
    (pre : String)
    (_hp : (probe s).1 = .ok d)
    (hdep : d.deprecated_format = true)
    (hN : d.total_number = (N : Int))
    (hi : i < N)
    (hok : ∀ j, j < i → isOkB (decodeOne stdP d pre s j).1 = true)
    (hv : s (toString i) = some (.txt v))
    (hsp : depSplit v = none) :
    (decodeAll stdP d pre s).1 = .error .formatError := by
  have htn : d.total_number.toNat = N := by rw [hN]; omega
  have he : (decodeOne stdP d pre s i).1 = .error .formatError := by
    simp [decodeOne, hdep, hv, BVal.decodeUtf8, hsp]
  obtain ⟨tl, htl⟩ := range_split i N hi
  unfold decodeAll
  rw [htn, htl]
  exact decodeAllAux_error stdP d pre s i tl .formatError he (List.range i)
    (fun j hj => hok j (List.mem_range.mp hj))

/-- C4 witness: a DEPRECATED store whose single value `"abc"` contains no
whitespace fails with `FormatError`. -/
theorem C4_dep_badsplit_witness :
    (decodeAll stdP ⟨1, true, true⟩ "" c4bStore).1 = .error .formatError :=
  C4_dep_badsplit c4bStore ⟨1, true, true⟩ 1 0 "abc" "" rfl rfl rfl (by decide)
    (fun j hj => absurd hj (by omega)) rfl (by decide)

/-- C9 witness: decoding the concrete MODERN store twice yields the same
list. -/
theorem C9_idempotent_witness :
    ([⟨"pre/image-000000001", [⟨"hello"⟩]⟩,
      ⟨"pre/image-000000002", [⟨"world"⟩]⟩] : List DataInfo) =
    [⟨"pre/image-000000001", [⟨"hello"⟩]⟩, ⟨"pre/image-000000002", [⟨"world"⟩]⟩] :=
  C9_idempotent stdP ⟨2, false, false⟩ "pre" c1Store _ _ rfl rfl

end RecogLMDB
